import Mathlib

/-! Verification of the CPM and budget core of the impression-budget
    calculator. The loader, segment selection, CPM aggregation, the
    threshold resolver and the budget projection are embedded as
    executable Lean functions. Monetary and impression values are
    modelled over ℚ; a numeric cell that failed to parse (NaN after the
    coercion with errors coerced) is modelled as Option.none, and the
    NaN produced by the zero-denominator guard as an Option.none CPM. -/

namespace ImpressionBudget

/-- ASCII lowercasing of one character, the model of Python lower. -/
def lowerCharA (c : Char) : Char :=
  if 65 ≤ c.toNat ∧ c.toNat ≤ 90 then Char.ofNat (c.toNat + 32) else c

/-- Lowercase of a string, the model of the lower call used on headers
    and country labels. -/
def pyLower (s : String) : String := String.mk (s.data.map lowerCharA)

/-- Whitespace test used by the strip model. -/
def isSpaceA (c : Char) : Bool := c == ' ' || c == '\t' || c == '\n' || c == '\r'

/-- Removal of leading and trailing whitespace, the model of Python
    strip. -/
def pyStrip (s : String) : String :=
  String.mk (((s.data.dropWhile isSpaceA).reverse.dropWhile isSpaceA).reverse)

/-- Removal of every space character, the model of replacing a space by
    the empty string in the impression-header variants check. -/
def stripSpaces (s : String) : String :=
  String.mk (s.data.filter (fun c => !(c == ' ')))

/-- One row of the campaign export after the numeric coercion performed
    by load_data: cost and impressions carry the coerced numeric value,
    none standing for NaN (an unparsable cell); country is none when the
    cell is missing. -/
structure RawRow where
  status : String
  platform : String
  campaignType : String
  cost : Option ℚ
  impressions : Option ℚ
  country : Option String
  deriving DecidableEq, Repr

/-- Row filter of load_data: keep rows whose impressions and cost are
    both present and strictly positive; a NaN field compares false in
    pandas, so such a row is dropped, exactly as the none cases here. -/
def keepRow (r : RawRow) : Bool :=
  match r.impressions, r.cost with
  | some i, some c => decide (0 < i) && decide (0 < c)
  | _, _ => false

/-- Rows retained by load_data after the positivity filter. -/
def loadRows (rows : List RawRow) : List RawRow := rows.filter keepRow

/-- Header normalization of load_data: strip surrounding whitespace and
    lowercase. -/
def normalizeHeader (c : String) : String := pyLower (pyStrip c)

/-- Collapse of the impression-column variants: a normalized header that
    equals impression or impressions once its spaces are removed is
    renamed to impressions. -/
def canonicalizeImpr (c : String) : String :=
  if stripSpaces c ∈ ["impressions", "impression"] then "impressions" else c

/-- Column names of the frame after normalization and renaming. -/
def normalizeColumns (cols : List String) : List String :=
  (cols.map normalizeHeader).map canonicalizeImpr

/-- Required columns checked by load_data. -/
def requiredCols : List String :=
  ["campaign status", "platform", "campaign type", "cost", "impressions"]

/-- Required columns absent from the normalized frame, in the order the
    comprehension of load_data lists them. -/
def missingCols (cols : List String) : List String :=
  requiredCols.filter (fun c => !((normalizeColumns cols).contains c))

/-- Loading of the already-parsed table: raise (error) with the list of
    missing columns when one is missing, otherwise the filtered rows. -/
def load_data (cols : List String) (rows : List RawRow) :
    Except (List String) (List RawRow) :=
  if missingCols cols = [] then Except.ok (loadRows rows)
  else Except.error (missingCols cols)

/-- Cost of a row as summed by pandas, a missing value counting zero. -/
def costVal (r : RawRow) : ℚ := r.cost.getD 0

/-- Impressions of a row as summed by pandas, a missing value counting
    zero. -/
def imprVal (r : RawRow) : ℚ := r.impressions.getD 0

/-- Cost sum of a segment. -/
def sumCost (rows : List RawRow) : ℚ := (rows.map costVal).sum

/-- Impressions sum of a segment. -/
def sumImpr (rows : List RawRow) : ℚ := (rows.map imprVal).sum

/-- Aggregated CPM of a segment: the cost sum over the impressions sum
    times 1000 when the impressions sum is positive, NaN (none)
    otherwise. -/
def aggregateCPM (rows : List RawRow) : Option ℚ :=
  if 0 < sumImpr rows then some (sumCost rows / sumImpr rows * 1000) else none

/-- Base segment: rows of the dataset matching the selected platform and
    campaign type. -/
def selectBase (df : List RawRow) (platform ctype : String) : List RawRow :=
  df.filter (fun r => r.platform == platform && r.campaignType == ctype)

/-- Country value of a row after the astype coercion to strings: a
    missing value becomes the literal string nan. -/
def countryStr (r : RawRow) : String :=
  match r.country with
  | some s => s
  | none => "nan"

/-- Labels meaning all markets. -/
def allLabels : List String := ["all", "all/overall", "overall"]

/-- Selectable individual countries: the distinct country values of the
    base segment whose stripped lowercase form is not an all-markets
    label. -/
def otherCountries (base : List RawRow) : List String :=
  ((base.map countryStr).dedup).filter
    (fun c => !(allLabels.contains (pyLower (pyStrip c))))

/-- Segment for the country choice: when a country column exists and a
    specific country is chosen, the base rows with that country value,
    otherwise the base segment itself. -/
def selectSeg (base : List RawRow) (hasCountry : Bool) (country : String) :
    List RawRow :=
  if hasCountry && country != "ALL/Overall" then
    base.filter (fun r => countryStr r == country)
  else base

/-- Minimum impressions required to trust a country-specific CPM. -/
def THRESHOLD_IMPR : ℚ := 100000

/-- CPM resolution: for a specific country whose segment reaches the
    threshold, the country CPM with the used_overall flag false;
    otherwise the overall CPM, the flag recording whether it was a
    fallback from an insufficient country history. -/
def resolveCPM (base seg : List RawRow) (hasCountry : Bool) (country : String) :
    Option ℚ × Bool :=
  if hasCountry && country != "ALL/Overall" then
    if THRESHOLD_IMPR ≤ sumImpr seg then (aggregateCPM seg, false)
    else (aggregateCPM base, true)
  else (aggregateCPM base, false)

/-- Terminal states of the selection pipeline before a CPM is resolved. -/
inductive AppError
  | emptyBase
  | emptySegment
  deriving DecidableEq, Repr

/-- Selection pipeline of the app body: build the base segment, stop
    with a warning when it is empty, build the country segment, stop
    when it is empty, otherwise resolve the effective CPM and the
    used_overall flag. -/
def runSelection (df : List RawRow) (platform ctype : String)
    (hasCountry : Bool) (country : String) :
    Except AppError (Option ℚ × Bool) :=
  let base := selectBase df platform ctype
  if base = [] then Except.error AppError.emptyBase
  else
    let seg := selectSeg base hasCountry country
    if seg = [] then Except.error AppError.emptySegment
    else Except.ok (resolveCPM base seg hasCountry country)

/-- Estimated total budget. -/
def estimated_budget (target_impr cpm_eff : ℚ) : ℚ :=
  target_impr / 1000 * cpm_eff

/-- Daily budget over the flight length. -/
def daily_budget (target_impr cpm_eff flight_days : ℚ) : ℚ :=
  estimated_budget target_impr cpm_eff / flight_days

/-- Estimated daily impressions over the flight length. -/
def daily_impressions (target_impr flight_days : ℚ) : ℚ :=
  target_impr / flight_days

/-- Predicate naming a row with a missing country cell. -/
def isMissingCountry (r : RawRow) : Bool := r.country.isNone

/-- Sample row: NL history. -/
def rowNL : RawRow :=
  ⟨"Enabled", "Google", "Search", some 1000, some 500000, some "NL"⟩

/-- Sample row: BE history below the threshold. -/
def rowBE : RawRow :=
  ⟨"Enabled", "Google", "Search", some 200, some 50000, some "BE"⟩

/-- Sample row: NL history with exactly the threshold volume. -/
def rowNL100 : RawRow :=
  ⟨"Enabled", "Google", "Search", some 300, some 100000, some "NL"⟩

/-- Sample row: BE history one impression short of the threshold. -/
def rowBE999 : RawRow :=
  ⟨"Enabled", "Google", "Search", some 250, some 99999, some "BE"⟩

/-- Sample row whose cost failed to parse. -/
def rowBadCost : RawRow :=
  ⟨"Enabled", "Google", "Search", none, some 1000, some "NL"⟩

/-- Sample row with a missing country cell. -/
def rowNoCountry : RawRow :=
  ⟨"Enabled", "Google", "Search", some 10, some 2000, none⟩

/-- C1: for every segment the aggregated CPM equals the cost sum divided
    by the impressions sum times 1000 whenever the impressions sum is
    positive; when the impressions sum is zero the CPM is undefined
    (none, the NaN of the code) and in particular is not zero. -/
theorem C1_aggregateCPM_formula (rows : List RawRow) :
    (0 < sumImpr rows →
      aggregateCPM rows = some (sumCost rows / sumImpr rows * 1000)) ∧
    (sumImpr rows = 0 →
      aggregateCPM rows = none ∧ aggregateCPM rows ≠ some 0) := by
  refine ⟨fun h => ?_, fun h => ?_⟩
  · simp [aggregateCPM, h]
  · simp [aggregateCPM, h]

/-- Witness for C1 on the two-row sample: the CPM is 24/11 and the empty
    segment has an undefined CPM. -/
theorem C1_aggregateCPM_formula_witness :
    aggregateCPM [rowNL, rowBE] = some (24 / 11) ∧
      aggregateCPM ([] : List RawRow) = none := by
  have hpos : (0 : ℚ) < sumImpr [rowNL, rowBE] := by
    simp [sumImpr, imprVal, rowNL, rowBE]
    norm_num
  constructor
  · rw [(C1_aggregateCPM_formula [rowNL, rowBE]).1 hpos]
    simp [sumCost, sumImpr, costVal, imprVal, rowNL, rowBE]
    norm_num
  · exact ((C1_aggregateCPM_formula []).2 (by simp [sumImpr])).1

/-- C5: for a positive impressions target, any defined effective CPM and
    a flight length of at least one day, the projection computes the
    total budget, the daily budget and the daily impressions by the
    exact formulas, the arithmetic over ℚ carrying no rounding. -/
theorem C5_budget_formulas (target_impr cpm_eff flight_days : ℚ)
    (ht : 0 < target_impr) (hf : 1 ≤ flight_days) :
    estimated_budget target_impr cpm_eff = target_impr / 1000 * cpm_eff ∧
    daily_budget target_impr cpm_eff flight_days =
      target_impr / 1000 * cpm_eff / flight_days ∧
    daily_impressions target_impr flight_days = target_impr / flight_days :=
  ⟨rfl, rfl, rfl⟩

/-- Witness for C5 at the documented scenario numbers. -/
theorem C5_budget_formulas_witness :
    (0 : ℚ) < 5000000 ∧ (1 : ℚ) ≤ 14 ∧
      (estimated_budget 5000000 (24 / 11) = 5000000 / 1000 * (24 / 11) ∧
        daily_budget 5000000 (24 / 11) 14 =
          5000000 / 1000 * (24 / 11) / 14 ∧
        daily_impressions 5000000 14 = 5000000 / 14) :=
  ⟨by norm_num, by norm_num,
    C5_budget_formulas 5000000 (24 / 11) 14 (by norm_num) (by norm_num)⟩

/-- Retained rows have positive impressions. -/
theorem keepRow_imprVal_pos {r : RawRow} (h : keepRow r = true) :
    0 < imprVal r := by
  rcases hr : r.impressions with _ | i <;> rcases hc : r.cost with _ | c <;>
      unfold keepRow at h <;> rw [hr, hc] at h <;> simp at h
  simp [imprVal, hr]
  exact h.1

/-- Sum of impressions over a non-empty list of rows with positive
    impressions is positive. -/
theorem sumImpr_pos_of_nonempty {l : List RawRow}
    (hall : ∀ r ∈ l, 0 < imprVal r) (hne : l ≠ []) : 0 < sumImpr l := by
  induction l with
  | nil => exact absurd rfl hne
  | cons a t _ =>
    have ha : 0 < imprVal a := hall a (by simp)
    have ht : 0 ≤ sumImpr t := by
      refine List.sum_nonneg ?_
      intro x hx
      rcases List.mem_map.mp hx with ⟨r, hr, hxr⟩
      exact hxr ▸ le_of_lt (hall r (List.mem_cons_of_mem a hr))
    have hs : sumImpr (a :: t) = imprVal a + sumImpr t := by
      simp [sumImpr]
    rw [hs]
    linarith

/-- C4: an input row whose cost or impressions failed to parse (none,
    the NaN of the coercion, not zero) or whose parsed value is not
    strictly positive is excluded from the loaded dataset and from every
    segment filtered from it, so it contributes to no sum. -/
theorem C4_invalid_rows_excluded (rows : List RawRow) (r : RawRow)
    (hbad : r.cost = none ∨ r.impressions = none ∨
      (∃ c, r.cost = some c ∧ c ≤ 0) ∨ (∃ i, r.impressions = some i ∧ i ≤ 0)) :
    r ∉ loadRows rows ∧ ∀ p : RawRow → Bool, r ∉ (loadRows rows).filter p := by
  have hk : keepRow r = false := by
    rcases hr : r.impressions with _ | i <;> rcases hc : r.cost with _ | c <;>
        unfold keepRow <;> rw [hr, hc]
    rcases hbad with h | h | ⟨c1, hc1, hle⟩ | ⟨i1, hi1, hle⟩
    · rw [hc] at h
      cases h
    · rw [hr] at h
      cases h
    · rw [hc] at hc1
      injection hc1 with he
      subst he
      simp [decide_eq_false (not_lt.mpr hle)]
    · rw [hr] at hi1
      injection hi1 with he
      subst he
      simp [decide_eq_false (not_lt.mpr hle)]
  constructor
  · intro hmem
    have := (List.mem_filter.mp hmem).2
    rw [hk] at this
    exact Bool.false_ne_true this
  · intro p hmem
    have hmem2 := (List.mem_filter.mp hmem).1
    have := (List.mem_filter.mp hmem2).2
    rw [hk] at this
    exact Bool.false_ne_true this

/-- Witness for C4: the unparsable-cost row is dropped by the loader. -/
theorem C4_invalid_rows_excluded_witness :
    rowBadCost ∉ loadRows [rowBadCost, rowNL] :=
  (C4_invalid_rows_excluded [rowBadCost, rowNL] rowBadCost (Or.inl rfl)).1

/-- C9: every non-empty segment filtered from the loaded dataset has a
    strictly positive impressions sum, so the zero-denominator guard
    never fires and the undefined-CPM branch is unreachable there: the
    aggregated CPM is a defined value. -/
theorem C9_nonempty_segment_cpm_defined (rows : List RawRow)
    (p : RawRow → Bool) (hne : (loadRows rows).filter p ≠ []) :
    0 < sumImpr ((loadRows rows).filter p) ∧
      aggregateCPM ((loadRows rows).filter p) =
        some (sumCost ((loadRows rows).filter p) /
          sumImpr ((loadRows rows).filter p) * 1000) := by
  have hall : ∀ r ∈ (loadRows rows).filter p, 0 < imprVal r := by
    intro r hr
    have hk : keepRow r = true :=
      (List.mem_filter.mp (List.mem_filter.mp hr).1).2
    exact keepRow_imprVal_pos hk
  have hpos := sumImpr_pos_of_nonempty hall hne
  exact ⟨hpos, by simp [aggregateCPM, hpos]⟩

/-- Predicate naming the Google Search base segment. -/
def isGoogleSearchRow (r : RawRow) : Bool :=
  r.platform == "Google" && r.campaignType == "Search"

/-- Witness for C9 on a one-row dataset. -/
theorem C9_nonempty_segment_cpm_defined_witness :
    0 < sumImpr ((loadRows [rowNL]).filter isGoogleSearchRow) := by
  have hne : (loadRows [rowNL]).filter isGoogleSearchRow ≠ [] := by
    have h1 : loadRows [rowNL] = [rowNL] := by
      simp only [loadRows, List.filter_cons, List.filter_nil]
      norm_num [keepRow, rowNL]
    rw [h1]
    simp only [List.filter_cons, List.filter_nil]
    norm_num [isGoogleSearchRow, rowNL]
  exact (C9_nonempty_segment_cpm_defined [rowNL] isGoogleSearchRow hne).1

/-- Empty lists have a zero impressions sum. -/
theorem sumImpr_nil : sumImpr [] = 0 := rfl

/-- A segment with a nonzero impressions sum is non-empty. -/
theorem ne_nil_of_sumImpr_ne_zero {l : List RawRow} (h : sumImpr l ≠ 0) :
    l ≠ [] := by
  intro hl
  exact h (hl ▸ sumImpr_nil)

/-- With a specific country chosen, the country segment is the filter of
    the base segment by the coerced country value. -/
theorem selectSeg_country {base : List RawRow} {c : String}
    (hc : c ≠ "ALL/Overall") :
    selectSeg base true c = base.filter (fun r => countryStr r == c) := by
  simp [selectSeg, bne_iff_ne, hc]

/-- C2: the threshold comparison is inclusive. With a specific country
    selected, a country segment whose impressions sum is exactly 100000
    resolves to the country-segment CPM with the used_overall flag false
    (provenance country), while a sum of 99999 resolves to the
    base-segment CPM with the flag true (provenance overall). -/
theorem C2_threshold_inclusive (df : List RawRow) (p t c : String)
    (hc : c ≠ "ALL/Overall") :
    (sumImpr (selectSeg (selectBase df p t) true c) = 100000 →
      runSelection df p t true c =
        Except.ok (aggregateCPM (selectSeg (selectBase df p t) true c), false)) ∧
    (sumImpr (selectSeg (selectBase df p t) true c) = 99999 →
      runSelection df p t true c =
        Except.ok (aggregateCPM (selectBase df p t), true)) := by
  have hcb : (c != "ALL/Overall") = true := by
    simp [bne_iff_ne, hc]
  constructor
  · intro hsum
    have hseg : selectSeg (selectBase df p t) true c ≠ [] :=
      ne_nil_of_sumImpr_ne_zero (by rw [hsum]; norm_num)
    have hbase : selectBase df p t ≠ [] := by
      intro hb
      apply hseg
      rw [selectSeg_country hc, hb, List.filter_nil]
    simp only [runSelection]
    rw [if_neg hbase, if_neg hseg]
    simp only [resolveCPM, hcb, Bool.true_and, if_pos rfl]
    rw [hsum]
    norm_num [THRESHOLD_IMPR]
  · intro hsum
    have hseg : selectSeg (selectBase df p t) true c ≠ [] :=
      ne_nil_of_sumImpr_ne_zero (by rw [hsum]; norm_num)
    have hbase : selectBase df p t ≠ [] := by
      intro hb
      apply hseg
      rw [selectSeg_country hc, hb, List.filter_nil]
    simp only [runSelection]
    rw [if_neg hbase, if_neg hseg]
    simp only [resolveCPM, hcb, Bool.true_and, if_pos rfl]
    rw [hsum]
    norm_num [THRESHOLD_IMPR]

/-- Dataset whose NL segment has exactly the threshold volume. -/
def dfW2a : List RawRow := [rowNL100, rowBE]

/-- Dataset whose BE segment is one impression short of the threshold. -/
def dfW2b : List RawRow := [rowNL, rowBE999]

/-- Witness for C2: at exactly 100000 NL impressions the country CPM is
    used, at 99999 BE impressions the overall CPM is used. -/
theorem C2_threshold_inclusive_witness :
    runSelection dfW2a "Google" "Search" true "NL" =
      Except.ok
        (aggregateCPM (selectSeg (selectBase dfW2a "Google" "Search") true "NL"),
          false) ∧
    runSelection dfW2b "Google" "Search" true "BE" =
      Except.ok (aggregateCPM (selectBase dfW2b "Google" "Search"), true) := by
  constructor
  · refine (C2_threshold_inclusive dfW2a "Google" "Search" "NL" (by decide)).1 ?_
    have hseg : selectSeg (selectBase dfW2a "Google" "Search") true "NL" =
        [rowNL100] := by decide
    rw [hseg]
    norm_num [sumImpr, imprVal, rowNL100]
  · refine (C2_threshold_inclusive dfW2b "Google" "Search" "BE" (by decide)).2 ?_
    have hseg : selectSeg (selectBase dfW2b "Google" "Search") true "BE" =
        [rowBE999] := by decide
    rw [hseg]
    norm_num [sumImpr, imprVal, rowBE999]

/-- C3 counterexample: with a single NL row, selecting the country BE
    yields an empty country segment (impressions sum zero, below the
    threshold), and the pipeline halts with the empty-segment warning
    instead of resolving to the base-segment CPM with the fallback
    flag, so the claim fails in the empty-segment case. -/
theorem C3_counterexample :
    runSelection [rowNL] "Google" "Search" true "BE" =
        Except.error AppError.emptySegment ∧
      runSelection [rowNL] "Google" "Search" true "BE" ≠
        Except.ok (aggregateCPM (selectBase [rowNL] "Google" "Search"), true) := by
  have h1 : selectBase [rowNL] "Google" "Search" = [rowNL] := by decide
  have h2 : selectSeg (selectBase [rowNL] "Google" "Search") true "BE" = [] := by
    decide
  have h3 : runSelection [rowNL] "Google" "Search" true "BE" =
      Except.error AppError.emptySegment := by
    simp only [runSelection]
    rw [if_neg (by rw [h1]; simp), if_pos h2]
  exact ⟨h3, by rw [h3]; simp⟩

/-- C3 amended: for a selected specific country whose country segment is
    non-empty and has an impressions sum below the 100000 threshold, the
    pipeline resolves to the base-segment CPM with the used_overall flag
    true (the recorded fallback reason shown to the user); when the
    country segment is empty the pipeline instead halts with the
    empty-segment warning before any CPM is resolved. -/
theorem C3_fallback_below_threshold (df : List RawRow) (p t c : String)
    (hc : c ≠ "ALL/Overall") :
    (selectSeg (selectBase df p t) true c ≠ [] →
      sumImpr (selectSeg (selectBase df p t) true c) < THRESHOLD_IMPR →
      runSelection df p t true c =
        Except.ok (aggregateCPM (selectBase df p t), true)) ∧
    (selectBase df p t ≠ [] →
      selectSeg (selectBase df p t) true c = [] →
      runSelection df p t true c = Except.error AppError.emptySegment) := by
  have hcb : (c != "ALL/Overall") = true := by
    simp [bne_iff_ne, hc]
  constructor
  · intro hseg hlt
    have hbase : selectBase df p t ≠ [] := by
      intro hb
      apply hseg
      rw [selectSeg_country hc, hb, List.filter_nil]
    simp only [runSelection]
    rw [if_neg hbase, if_neg hseg]
    simp only [resolveCPM, hcb, Bool.true_and, if_pos rfl]
    rw [if_neg (not_le.mpr hlt)]
    simp
  · intro hbase hseg
    simp only [runSelection]
    rw [if_neg hbase, if_pos hseg]

/-- Witness for C3 as amended: BE has 50000 impressions of history, so
    the resolution falls back to the overall CPM with the flag set. -/
theorem C3_fallback_below_threshold_witness :
    runSelection [rowNL, rowBE] "Google" "Search" true "BE" =
      Except.ok (aggregateCPM (selectBase [rowNL, rowBE] "Google" "Search"),
        true) := by
  have hseg : selectSeg (selectBase [rowNL, rowBE] "Google" "Search") true "BE" =
      [rowBE] := by decide
  refine (C3_fallback_below_threshold [rowNL, rowBE] "Google" "Search" "BE"
    (by decide)).1 ?_ ?_
  · rw [hseg]
    simp
  · rw [hseg]
    norm_num [sumImpr, imprVal, rowBE, THRESHOLD_IMPR]

/-- Mediant inequality: a ratio of summed numerators and denominators
    lies between the two ratios when both denominators are positive. -/
theorem mediant_bounds (c1 i1 c2 i2 : ℚ) (h1 : 0 < i1) (h2 : 0 < i2) :
    min (c1 / i1) (c2 / i2) ≤ (c1 + c2) / (i1 + i2) ∧
      (c1 + c2) / (i1 + i2) ≤ max (c1 / i1) (c2 / i2) := by
  have h12 : 0 < i1 + i2 := by linarith
  rcases le_total (c1 / i1) (c2 / i2) with hle | hle
  · have hcross : c1 * i2 ≤ c2 * i1 := (div_le_div_iff h1 h2).mp hle
    constructor
    · rw [min_eq_left hle, div_le_div_iff h1 h12]
      nlinarith
    · rw [max_eq_right hle, div_le_div_iff h12 h2]
      nlinarith
  · have hcross : c2 * i1 ≤ c1 * i2 := (div_le_div_iff h2 h1).mp hle
    constructor
    · rw [min_eq_right hle, div_le_div_iff h2 h12]
      nlinarith
    · rw [max_eq_left hle, div_le_div_iff h12 h1]
      nlinarith

/-- Sums of cost and impressions are additive over a merge. -/
theorem sums_append (A B : List RawRow) :
    sumCost (A ++ B) = sumCost A + sumCost B ∧
      sumImpr (A ++ B) = sumImpr A + sumImpr B := by
  constructor <;> simp [sumCost, sumImpr]

/-- C6: for disjoint segments A and B, each with a positive impressions
    sum, all three CPMs are defined and the CPM of the merged segment
    lies between the CPMs of A and B (volume weighting, not a simple
    average of the two). -/
theorem C6_merged_cpm_between (A B : List RawRow)
    (hd : ∀ r ∈ A, r ∉ B) (hA : 0 < sumImpr A) (hB : 0 < sumImpr B) :
    aggregateCPM A = some (sumCost A / sumImpr A * 1000) ∧
    aggregateCPM B = some (sumCost B / sumImpr B * 1000) ∧
    aggregateCPM (A ++ B) =
      some (sumCost (A ++ B) / sumImpr (A ++ B) * 1000) ∧
    min (sumCost A / sumImpr A * 1000) (sumCost B / sumImpr B * 1000) ≤
      sumCost (A ++ B) / sumImpr (A ++ B) * 1000 ∧
    sumCost (A ++ B) / sumImpr (A ++ B) * 1000 ≤
      max (sumCost A / sumImpr A * 1000) (sumCost B / sumImpr B * 1000) := by
  obtain ⟨hcost, himpr⟩ := sums_append A B
  have hAB : 0 < sumImpr (A ++ B) := by
    rw [himpr]
    linarith
  obtain ⟨hlo, hhi⟩ :=
    mediant_bounds (sumCost A) (sumImpr A) (sumCost B) (sumImpr B) hA hB
  refine ⟨by simp [aggregateCPM, hA], by simp [aggregateCPM, hB],
    by simp [aggregateCPM, hAB], ?_, ?_⟩
  · rw [hcost, himpr, ← min_mul_of_nonneg _ _ (by norm_num : (0:ℚ) ≤ 1000)]
    exact mul_le_mul_of_nonneg_right hlo (by norm_num)
  · rw [hcost, himpr, ← max_mul_of_nonneg _ _ (by norm_num : (0:ℚ) ≤ 1000)]
    exact mul_le_mul_of_nonneg_right hhi (by norm_num)

/-- Witness for C6 on the NL and BE sample rows: the merged CPM 24/11
    lies between the NL CPM 2 and the BE CPM 4. -/
theorem C6_merged_cpm_between_witness :
    min (sumCost [rowNL] / sumImpr [rowNL] * 1000)
        (sumCost [rowBE] / sumImpr [rowBE] * 1000) ≤
      sumCost ([rowNL] ++ [rowBE]) / sumImpr ([rowNL] ++ [rowBE]) * 1000 ∧
    sumCost ([rowNL] ++ [rowBE]) / sumImpr ([rowNL] ++ [rowBE]) * 1000 ≤
      max (sumCost [rowNL] / sumImpr [rowNL] * 1000)
        (sumCost [rowBE] / sumImpr [rowBE] * 1000) := by
  have h := C6_merged_cpm_between [rowNL] [rowBE]
    (by decide) (by norm_num [sumImpr, imprVal, rowNL])
    (by norm_num [sumImpr, imprVal, rowBE])
  exact ⟨h.2.2.2.1, h.2.2.2.2⟩

/-- C7: a country value whose stripped lowercase form is an all-markets
    label is excluded from the selectable individual countries, and
    choosing the ALL/Overall option (or having no country column at all)
    applies no country filter: the segment is the full base segment. -/
theorem C7_all_labels_excluded (base : List RawRow) (c : String)
    (h : pyLower (pyStrip c) ∈ allLabels) :
    c ∉ otherCountries base ∧
      selectSeg base true "ALL/Overall" = base ∧
      selectSeg base false c = base := by
  refine ⟨?_, ?_, ?_⟩
  · intro hmem
    have h2 := (List.mem_filter.mp hmem).2
    simp only [Bool.not_eq_true', List.contains_eq_any_beq] at h2
    rw [List.any_eq_false] at h2
    exact (h2 _ h) (by simp)
  · simp [selectSeg]
  · simp [selectSeg]

/-- Witness for C7: the label ALL is not selectable, and ALL/Overall
    leaves the base segment whole. -/
theorem C7_all_labels_excluded_witness :
    "ALL" ∉ otherCountries [rowNL] ∧
      selectSeg [rowNL] true "ALL/Overall" = [rowNL] ∧
      selectSeg [rowNL] false "ALL" = [rowNL] :=
  C7_all_labels_excluded [rowNL] "ALL" (by decide)

/-- C10: when the dataset has a country column, a missing country value
    is coerced to the literal string nan, which is offered as a
    selectable individual country (it is not an all-markets label), and
    selecting it filters the segment to exactly the missing-country rows
    whenever no row carries the literal country string nan. -/
theorem C10_nan_country (base : List RawRow)
    (hsome : ∃ r ∈ base, r.country = none)
    (hlit : ∀ r ∈ base, r.country ≠ some "nan") :
    "nan" ∈ otherCountries base ∧
      selectSeg base true "nan" = base.filter isMissingCountry := by
  constructor
  · obtain ⟨r, hr, hnone⟩ := hsome
    have hmap : "nan" ∈ base.map countryStr :=
      List.mem_map.mpr ⟨r, hr, by simp [countryStr, hnone]⟩
    refine List.mem_filter.mpr ⟨List.mem_dedup.mpr hmap, by decide⟩
  · rw [selectSeg_country (by decide)]
    refine List.filter_congr ?_
    intro r hr
    rcases hc : r.country with _ | s
    · simp [countryStr, isMissingCountry, hc]
    · have hs : s ≠ "nan" := by
        intro he
        exact hlit r hr (by rw [hc, he])
      simp [countryStr, isMissingCountry, hc, hs]

/-- Witness for C10 on a dataset with one missing-country row. -/
theorem C10_nan_country_witness :
    "nan" ∈ otherCountries [rowNoCountry, rowNL] ∧
      selectSeg [rowNoCountry, rowNL] true "nan" =
        List.filter isMissingCountry [rowNoCountry, rowNL] :=
  C10_nan_country [rowNoCountry, rowNL] (by decide) (by decide)

/-- C8: loading fails exactly when a required field is absent after
    header normalization, the error lists precisely the missing fields
    in order, and when every required field is present loading succeeds
    with the filtered rows. -/
theorem C8_schema_check (cols : List String) (rows : List RawRow) :
    (∀ c, c ∈ missingCols cols ↔
      c ∈ requiredCols ∧ c ∉ normalizeColumns cols) ∧
    (missingCols cols ≠ [] →
      load_data cols rows = Except.error (missingCols cols)) ∧
    (missingCols cols = [] →
      load_data cols rows = Except.ok (loadRows rows)) ∧
    (missingCols cols = [] ↔ ∀ c ∈ requiredCols, c ∈ normalizeColumns cols) := by
  refine ⟨?_, fun h => ?_, fun h => ?_, ?_⟩
  · intro c
    simp [missingCols, List.mem_filter, List.contains_eq_any_beq,
      List.any_eq_true]
  · simp [load_data, h]
  · simp [load_data, h]
  · rw [missingCols, List.filter_eq_nil_iff]
    constructor
    · intro h c hc
      have h3 := h c hc
      simpa using h3
    · intro h c hc
      simpa using h c hc

/-- Column list with header variants that normalize to the required
    fields. -/
def colsVariant : List String :=
  [" Campaign Status ", "Platform", "Campaign Type", "Cost", " Impression "]

/-- Column list missing the cost field. -/
def colsBad : List String :=
  ["campaign status", "platform", "campaign type", "impressions"]

/-- Witness for C8: the variant headers load, the cost-less headers fail
    with exactly the missing field listed. -/
theorem C8_schema_check_witness :
    missingCols colsBad ≠ [] ∧
      load_data colsBad [rowNL] = Except.error (missingCols colsBad) ∧
      missingCols colsBad = ["cost"] ∧
      missingCols colsVariant = [] ∧
      load_data colsVariant [rowNL] = Except.ok (loadRows [rowNL]) :=
  ⟨by decide, (C8_schema_check colsBad [rowNL]).2.1 (by decide), by decide,
    by decide, (C8_schema_check colsVariant [rowNL]).2.2.1 (by decide)⟩

end ImpressionBudget
